import Mathlib

set_option maxHeartbeats 1000000
set_option maxRecDepth 100000

namespace Kora

/-! Shallow embedding of the rent-reclaim core of the Kora TUI bot:
the reclaim engine (src/reclaim/engine.rs), the eligibility classifier
(src/reclaim/eligibility.rs), account discovery (src/solana/accounts.rs),
the batch processor (src/reclaim/batch.rs) and treasury reconciliation
(src/treasury/reconciliation.rs).  Remote calls are modelled by explicit
environment records holding the (deterministic) RPC responses; machine
integers are Nat, byte vectors are lists of Nat. -/

/-- Public keys are modelled as natural numbers (a 32-byte key read as a
little-endian integer). -/
abbrev Pubkey := Nat

/-- The system program id: a fixed well-known key.  Only its distinctness
from the SPL token program id matters. -/
def system_program_id : Pubkey := 0

/-- The SPL token program id: a fixed well-known key distinct from the
system program id. -/
def spl_token_id : Pubkey := 1

/-- solana_sdk::account::Account, restricted to the fields this codebase
reads: lamports, raw data bytes, and the owning program. -/
structure Account where
  lamports : Nat
  data : List Nat
  owner : Pubkey
deriving Repr, DecidableEq

/-- kora::types::AccountType (identical to solana::accounts::AccountType). -/
inductive AccountType where
  | system
  | splToken
  | other (programId : Pubkey)
deriving Repr, DecidableEq

/-- error::ReclaimError, restricted to the variants the modelled code can
produce: NotEligible with its message, and an RPC/transport failure. -/
inductive ReclaimError where
  | notEligible (msg : String)
  | rpc (msg : String)
deriving Repr, DecidableEq

/-- reclaim::engine::ReclaimResult. -/
structure ReclaimResult where
  signature : Option Nat
  amount_reclaimed : Nat
  account : Pubkey
  dry_run : Bool
deriving Repr, DecidableEq

/-- A byte list read as a little-endian integer (u64::from_le_bytes and
Pubkey::new_from_array are both injective encodings of fixed-width byte
arrays; little-endian folding models both). -/
def leBytes (l : List Nat) : Nat := l.foldr (fun b acc => b + 256 * acc) 0

/-- data[start .. start+len], as produced by Rust slice indexing. -/
def byteSlice (l : List Nat) (start len : Nat) : List Nat := (l.drop start).take len

/-- The RPC responses one reclaim_account call can observe: the fetched
account, the latest-blockhash fetch, and the send_and_confirm_transaction
outcome.  Transport failures are strings, injected into ReclaimError.rpc. -/
structure ReclaimEnv where
  get_account : Except String (Option Account)
  get_latest_blockhash : Except String Nat
  send_and_confirm : Except String Nat

/-- The single instruction shape the engine builds:
spl_token::instruction::close_account(program, account, destination,
authority). -/
inductive Instruction where
  | closeTokenAccount (tokenProgram account destination authority : Pubkey)
deriving Repr, DecidableEq

/-- ReclaimEngine::build_close_instruction: type-dispatched construction.
System and Other(_) always fail with NotEligible; SplToken builds a close
instruction with the treasury as destination and the operator as
authority. -/
def build_close_instruction (operator treasury : Pubkey)
    (account_pubkey : Pubkey) (account_type : AccountType) :
    Except ReclaimError Instruction :=
  match account_type with
  | .system =>
    .error (.notEligible "Cannot reclaim from System accounts - user controls the private key. Reclaim only possible if user voluntarily closes account.")
  | .splToken =>
    .ok (.closeTokenAccount spl_token_id account_pubkey treasury operator)
  | .other _ =>
    .error (.notEligible "Custom program accounts require program-specific close logic")

/-- The inline SPL-token precondition block of ReclaimEngine::reclaim_account
(lines 88-184): layout size, token amount at offset 64, state byte at
offset 108, close authority at offsets 129/130-162 with the owner at
32-64 as fallback.  Returns the first failing check's error, or none. -/
def spl_token_checks (operator : Pubkey) (acc : Account) : Option ReclaimError :=
  if acc.data.length < 165 then
    some (.notEligible "Invalid SPL Token account data size")
  else if 0 < leBytes (byteSlice acc.data 64 8) then
    some (.notEligible "Cannot close token account: still has tokens. Account must be emptied first.")
  else if acc.data.getD 108 0 = 2 then
    some (.notEligible "Cannot close frozen token account")
  else if acc.data.getD 129 0 = 1 then
    if leBytes (byteSlice acc.data 130 32) ≠ operator then
      some (.notEligible "Cannot close token account: operator is not the close authority")
    else none
  else if leBytes (byteSlice acc.data 32 32) ≠ operator then
    some (.notEligible "Cannot close token account: no close authority set and operator is not the owner")
  else none

/-- ReclaimEngine::reclaim_account.  Returns the Result together with the
number of transactions submitted to the network (a send_and_confirm call
counts as a submission whether or not it succeeds). -/
def reclaim_account (operator treasury : Pubkey) (dry_run : Bool)
    (env : ReclaimEnv) (account_pubkey : Pubkey) (account_type : AccountType) :
    Except ReclaimError ReclaimResult × Nat :=
  match env.get_account with
  | .error e => (.error (.rpc e), 0)
  | .ok none => (.ok ⟨none, 0, account_pubkey, dry_run⟩, 0)
  | .ok (some acc) =>
    if acc.lamports = 0 then
      (.error (.notEligible "Account has no balance"), 0)
    else
      let splCheck : Option ReclaimError :=
        match account_type with
        | .splToken => spl_token_checks operator acc
        | _ => none
      match splCheck with
      | some e => (.error e, 0)
      | none =>
        match build_close_instruction operator treasury account_pubkey account_type with
        | .error e => (.error e, 0)
        | .ok _ =>
          if dry_run then
            (.ok ⟨none, acc.lamports, account_pubkey, true⟩, 0)
          else
            match env.get_latest_blockhash with
            | .error e => (.error (.rpc e), 0)
            | .ok _ =>
              match env.send_and_confirm with
              | .error e => (.error (.rpc e), 1)
              | .ok sig => (.ok ⟨some sig, acc.lamports, account_pubkey, false⟩, 1)

/-- Whether an engine outcome is a NotEligible failure. -/
def isNotEligibleErr : Except ReclaimError ReclaimResult → Bool
  | .error (.notEligible _) => true
  | _ => false

/-- The conjunction of the live-byte preconditions reclaim_account re-checks
for an SPL token account (claim C2's list): 165-byte layout, zero token
amount at offset 64, state byte at offset 108 not frozen (2), and the
close-authority check (presence flag at 129, key at 130-162, owner at
32-64 as fallback) passing against the operator key. -/
def spl_close_preconditions (operator : Pubkey) (acc : Account) : Prop :=
  165 ≤ acc.data.length ∧
  leBytes (byteSlice acc.data 64 8) = 0 ∧
  acc.data.getD 108 0 ≠ 2 ∧
  (if acc.data.getD 129 0 = 1 then leBytes (byteSlice acc.data 130 32) = operator
   else leBytes (byteSlice acc.data 32 32) = operator)

instance (operator : Pubkey) (acc : Account) :
    Decidable (spl_close_preconditions operator acc) := by
  unfold spl_close_preconditions
  infer_instance

/-- An environment whose account fetch reports an existing account holding
zero lamports. -/
def envZeroBalance : ReclaimEnv := ⟨.ok (some ⟨0, [], 0⟩), .ok 0, .ok 0⟩

/-- An environment whose account fetch reports that the account is absent. -/
def envAbsent : ReclaimEnv := ⟨.ok none, .ok 0, .ok 0⟩

/-- The configuration fields the eligibility classifier reads: allow/deny
lists, the minimum-inactivity window in days, and the operator key
(config::ReclaimConfig plus Config::operator_pubkey). -/
structure ReclaimConfig where
  whitelist : List Pubkey
  blacklist : List Pubkey
  min_inactive_days : Nat
  operator : Pubkey

/-- The RPC responses one is_eligible call can observe: the fetched
account, the rent-exempt minimum for a data length, and the block time of
the account's most recent transaction (AccountDiscovery
::get_last_transaction_time). -/
structure EligEnv where
  get_account : Except String (Option Account)
  min_balance_for : Nat → Except String Nat
  last_tx_time : Except String (Option Int)

/-- EligibilityChecker::determine_account_type: SPL token program owner
with the exact 165-byte layout is SplToken, system program owner is
System, anything else is Other(owner). -/
def determine_account_type (acc : Account) : AccountType :=
  if acc.owner = spl_token_id ∧ acc.data.length = 165 then .splToken
  else if acc.owner = system_program_id then .system
  else .other acc.owner

/-- EligibilityChecker::is_reclaimable_type. -/
def is_reclaimable_type : AccountType → Bool
  | .system => false
  | .splToken => true
  | .other _ => false

/-- EligibilityChecker::has_close_authority: data shorter than the
165-byte layout means no authority; otherwise the presence flag at offset
129 selects the close authority at 130-162, else the owner at 32-64, and
the selected key is compared with the operator key. -/
def has_close_authority (operator : Pubkey) (acc : Account) : Bool :=
  if acc.data.length < 165 then false
  else if acc.data.getD 129 0 = 1 then
    leBytes (byteSlice acc.data 130 32) == operator
  else
    leBytes (byteSlice acc.data 32 32) == operator

/-- solana::rent::RentCalculator::is_empty_account. -/
def is_empty_account (acc : Account) (minimum_balance : Nat) : Bool :=
  acc.data.isEmpty ||
    (decide (acc.lamports ≤ minimum_balance) && acc.data.all (fun b => b == 0))

/-- EligibilityChecker::check_inactivity: true when the account's most
recent transaction is older than the minimum-inactivity window (days are
86400 seconds), true when it has no history at all, and the RPC error
otherwise. -/
def check_inactivity (min_inactive_days : Nat) (env : EligEnv) (now : Int) :
    Except String Bool :=
  match env.last_tx_time with
  | .error e => .error e
  | .ok (some last_activity) =>
      .ok (decide (now - last_activity > (min_inactive_days : Int) * 86400))
  | .ok none => .ok true

/-- EligibilityChecker::is_eligible: the short-circuiting decision chain of
section 4.2 - allow/deny lists, existence, nonzero balance, reclaimable
type, close authority for SPL tokens, account age, recent-activity check
(an inactivity-probe error counts as active via unwrap_or(false)), and the
emptiness / dust-tolerance balance check. -/
def is_eligible (cfg : ReclaimConfig) (env : EligEnv) (now : Int)
    (pk : Pubkey) (created_at : Int) : Except String Bool :=
  if pk ∈ cfg.whitelist then .ok false
  else if pk ∈ cfg.blacklist then .ok false
  else
    match env.get_account with
    | .error e => .error e
    | .ok none => .ok false
    | .ok (some acc) =>
      if acc.lamports = 0 then .ok false
      else if is_reclaimable_type (determine_account_type acc) = false then .ok false
      else if determine_account_type acc = AccountType.splToken ∧
              has_close_authority cfg.operator acc = false then .ok false
      else if now - created_at < (cfg.min_inactive_days : Int) * 86400 then .ok false
      else if (match check_inactivity cfg.min_inactive_days env now with
               | .ok b => b
               | .error _ => false) = false then .ok false
      else
        match env.min_balance_for acc.data.length with
        | .error e => .error e
        | .ok min_balance =>
          if is_empty_account acc min_balance then .ok true
          else if acc.lamports ≤ min_balance * 2 then .ok true
          else .ok false

/-- A concrete eligibility environment used by the C6 witness: an SPL
token account whose owner bytes are all zero, no transaction history, and
a rent-exempt minimum of 1000 lamports. -/
def eligEnvW : EligEnv :=
  ⟨.ok (some ⟨1000, List.replicate 165 0, 1⟩), fun _ => .ok 1000, .ok none⟩

/-- storage::models::SponsoredAccount, restricted to the fields treasury
reconciliation reads: the stored address string - modelled by its parse
result, where none stands for a string Pubkey::from_str rejects - and the
recorded rent. -/
structure SponsoredAccount where
  pubkey : Option Pubkey
  rent_lamports : Nat
deriving Repr, DecidableEq

/-- treasury::reconciliation::ConfidenceLevel. -/
inductive ConfidenceLevel where
  | high
  | medium
  | low
  | unknown
deriving Repr, DecidableEq

/-- treasury::reconciliation::PassiveReclaim. -/
structure PassiveReclaim where
  amount : Nat
  timestamp : Int
  attributed_accounts : List Pubkey
  confidence : ConfidenceLevel
deriving Repr, DecidableEq

/-- The absolute difference computed by the explicit branch in the source:
if increase > rent then increase - rent else rent - increase. -/
def lamportDiff (increase rent : Nat) : Nat :=
  if increase > rent then increase - rent else rent - increase

/-- First pair (i, j), i before j, satisfying p, scanning i outward then j
inward - the iteration order of the nested pair loops. -/
def firstPair (p : α → α → Bool) : List α → Option (α × α)
  | [] => none
  | a :: rest =>
    match rest.find? (p a) with
    | some b => some (a, b)
    | none => firstPair p rest

/-- First triple (i, j, k), i before j before k, satisfying p - the
iteration order of the nested triplet loops. -/
def firstTriple (p : α → α → α → Bool) : List α → Option (α × α × α)
  | [] => none
  | a :: rest =>
    match firstPair (p a) rest with
    | some (b, c) => some (a, b, c)
    | none => firstTriple p rest

/-- TreasuryReconciliation::find_account_combination: first pair summing
within tolerance of the target, else first triple; a stored address that
fails to parse aborts with None (the ok()? early return). -/
def find_account_combination (target : Nat) (accounts : List SponsoredAccount)
    (tolerance : Nat) : Option (List Pubkey × Nat) :=
  match firstPair
      (fun a b => decide (lamportDiff (a.rent_lamports + b.rent_lamports) target ≤ tolerance))
      accounts with
  | some (a, b) =>
    match a.pubkey, b.pubkey with
    | some pa, some pb => some ([pa, pb], a.rent_lamports + b.rent_lamports)
    | _, _ => none
  | none =>
    match firstTriple
        (fun a b c =>
          decide (lamportDiff (a.rent_lamports + b.rent_lamports + c.rent_lamports) target
            ≤ tolerance))
        accounts with
    | some (a, b, c) =>
      match a.pubkey, b.pubkey, c.pubkey with
      | some pa, some pb, some pc =>
        some ([pa, pb, pc], a.rent_lamports + b.rent_lamports + c.rent_lamports)
      | _, _, _ => none
    | none => none

/-- TreasuryReconciliation::match_amount_to_accounts with its fixed
5000-lamport tolerance: first single account within tolerance gives one
High record; else, with at least two closed accounts, a pair/triple
combination gives one Medium record; else one Low record attributing the
first up-to-5 closed accounts whose addresses parse, or Unknown when the
closed list is empty.  An unparseable stored address falls back to the
default key 0 (parse().unwrap_or(default)). -/
def match_amount_to_accounts (increase : Nat)
    (closed_accounts : List SponsoredAccount) (now : Int) : List PassiveReclaim :=
  match closed_accounts.find?
      (fun a => decide (lamportDiff increase a.rent_lamports ≤ 5000)) with
  | some account => [⟨increase, now, [account.pubkey.getD 0], .high⟩]
  | none =>
    match (if 2 ≤ closed_accounts.length then
            find_account_combination increase closed_accounts 5000
          else none) with
    | some (pks, _) => [⟨increase, now, pks, .medium⟩]
    | none =>
      [⟨increase, now, (closed_accounts.take 5).filterMap (fun a => a.pubkey),
        if closed_accounts.isEmpty then .unknown else .low⟩]

/-- The engine state threaded through batch processing: the operator and
treasury keys, the dry-run flag, and the per-account RPC responses. -/
structure EngineCtx where
  operator : Pubkey
  treasury : Pubkey
  dry_run : Bool
  env : Pubkey → ReclaimEnv

/-- ReclaimEngine::batch_reclaim: sequential per-account reclaims, each
account's outcome captured in its own slot; the call itself always
returns Ok. -/
def batch_reclaim (ctx : EngineCtx) (accounts : List (Pubkey × AccountType)) :
    Except ReclaimError (List (Pubkey × Except ReclaimError ReclaimResult)) :=
  .ok (accounts.map (fun p =>
    (p.1, (reclaim_account ctx.operator ctx.treasury ctx.dry_run (ctx.env p.1) p.1 p.2).1)))

/-- reclaim::batch::BatchSummary. -/
structure BatchSummary where
  total_accounts : Nat
  successful : Nat
  failed : Nat
  total_reclaimed : Nat
  results : List (Pubkey × Except ReclaimError ReclaimResult)
deriving Repr

/-- Folding one per-account outcome into the summary: bump the success or
failure tally, add any reclaimed amount, append the result. -/
def addResult (s : BatchSummary) (pk : Pubkey)
    (r : Except ReclaimError ReclaimResult) : BatchSummary :=
  match r with
  | .ok rr => ⟨s.total_accounts, s.successful + 1, s.failed,
      s.total_reclaimed + rr.amount_reclaimed, s.results ++ [(pk, .ok rr)]⟩
  | .error e => ⟨s.total_accounts, s.successful, s.failed + 1,
      s.total_reclaimed, s.results ++ [(pk, .error e)]⟩

/-- The chunk-outcome match inside BatchProcessor::process_batch: an Ok
chunk folds its per-account results into the summary; a failed chunk call
is retried account by account through ReclaimEngine::reclaim_account. -/
def handle_chunk_result (ctx : EngineCtx) (chunk : List (Pubkey × AccountType))
    (outcome : Except ReclaimError (List (Pubkey × Except ReclaimError ReclaimResult)))
    (s : BatchSummary) : BatchSummary :=
  match outcome with
  | .ok res => res.foldl (fun s pr => addResult s pr.1 pr.2) s
  | .error _ => chunk.foldl (fun s p =>
      addResult s p.1
        (reclaim_account ctx.operator ctx.treasury ctx.dry_run (ctx.env p.1) p.1 p.2).1) s

/-- slice::chunks: successive chunks of at most n elements (n is positive
at every call site; for n = 0 the model returns no chunks). -/
def chunksOf (n : Nat) (l : List α) : List (List α) :=
  if h : l.isEmpty ∨ n = 0 then [] else l.take n :: chunksOf n (l.drop n)
termination_by l.length
decreasing_by
  push_neg at h
  have hne : l ≠ [] := fun hnil => h.1 (by simp [hnil])
  have hpos : 0 < l.length := List.length_pos.mpr hne
  rw [List.length_drop]
  omega

/-- BatchProcessor::process_batch: chunked sequential processing with the
per-chunk retry fallback; the aggregate is always Ok. -/
def process_batch (ctx : EngineCtx) (batch_size : Nat)
    (accounts : List (Pubkey × AccountType)) : Except ReclaimError BatchSummary :=
  .ok ((chunksOf batch_size accounts).foldl
    (fun s chunk => handle_chunk_result ctx chunk (batch_reclaim ctx chunk) s)
    ⟨accounts.length, 0, 0, 0, []⟩)

/-- BatchProcessor::reclaim_all_eligible: empty input short-circuits to
the default summary, otherwise process_batch. -/
def reclaim_all_eligible (ctx : EngineCtx) (batch_size : Nat)
    (eligible_accounts : List (Pubkey × AccountType)) :
    Except ReclaimError BatchSummary :=
  if eligible_accounts.isEmpty then .ok ⟨0, 0, 0, 0, []⟩
  else process_batch ctx batch_size eligible_accounts

/-- The fixed associated-token-account rent-exempt minimum recorded for
ATA creations (the instruction carries no lamports field). -/
def ATA_RENT_EXEMPTION : Nat := 2039280

/-- The fixed 165-byte token-account layout size. -/
def ATA_SIZE : Nat := 165

/-- One Parsed(Parsed) instruction of a Json-encoded transaction, reduced
to the JSON fields discovery reads.  A field of type Option (Option
Pubkey) is none when the JSON field is absent, some none when it is
present but rejected by Pubkey::from_str, and some (some k) when it
parses to k.  program_id is the result of parsing the program name itself
as a key (consulted only by the Other-program fallback). -/
structure ParsedInstr where
  program : String
  program_id : Option Pubkey
  instr_type : Option String
  account : Option (Option Pubkey)
  newAccount : Option (Option Pubkey)
  address : Option (Option Pubkey)
  lamports : Option Nat
  space : Option Nat
deriving Repr, DecidableEq

/-- The shape of a fetched transaction's payload: notJson models a
non-Json encoding (skipped with no creations); a Json transaction records
whether every account key string parses (extract_account_keys, whose
output is otherwise unused) and, when the message is in Parsed form, its
instruction list - none models a Raw message, which is not scanned.  An
instruction entry of none models a Compiled or PartiallyDecoded
instruction, which yields nothing. -/
inductive TxEncoding where
  | notJson
  | json (keysOk : Bool) (instructions : Option (List (Option ParsedInstr)))
deriving Repr, DecidableEq

/-- A fetched confirmed transaction: slot, optional block time, payload. -/
structure Tx where
  slot : Nat
  block_time : Option Int
  encoding : TxEncoding
deriving Repr, DecidableEq

/-- solana::accounts::SponsoredAccountInfo. -/
structure SponsoredAccountInfo where
  pubkey : Pubkey
  creation_signature : Nat
  creation_slot : Nat
  creation_time : Int
  initial_balance : Nat
  data_size : Nat
  account_type : AccountType
deriving Repr, DecidableEq

/-- The creation-time computation at the top of
parse_transaction_for_creations: block_time.unwrap_or(0); a positive
block time is used as the timestamp, otherwise the time is estimated from
the slot at 400 ms per slot on top of the fixed epoch 1600000000 - never
the current wall-clock time.  Timestamps are seconds;
DateTime::from_timestamp is modelled as total, and the u64-to-i64 slot
cast is not modelled (real slots are far below 2^63). -/
def creation_time_of (block_time : Option Int) (slot : Nat) : Int :=
  if 0 < block_time.getD 0 then block_time.getD 0
  else (1600000000 : Int) + ((slot * 400) / 1000 : Nat)

/-- Substring test used by the Other-program fallback
(str::contains). -/
def strContains (s sub : String) : Bool := decide (sub.toList <:+: s.toList)

/-- AccountDiscovery::parse_instruction_for_creation: the four creation
shapes.  Where the source applies the ? operator to Pubkey::from_str, a
parse failure propagates as an error; in the Other-program fallback a
parse failure is silently skipped (if let Ok). -/
def parse_instruction_for_creation (instr : ParsedInstr) (signature : Nat)
    (slot : Nat) (creation_time : Int) :
    Except String (Option SponsoredAccountInfo) :=
  if instr.program = "spl-associated-token-account" then
    match instr.instr_type with
    | some t =>
      if t = "create" ∨ t = "createIdempotent" then
        match instr.account with
        | some (some ata) =>
          .ok (some ⟨ata, signature, slot, creation_time,
            ATA_RENT_EXEMPTION, ATA_SIZE, .splToken⟩)
        | some none => .error "parse pubkey error"
        | none => .ok none
      else .ok none
    | none => .ok none
  else if instr.program = "system" then
    match instr.instr_type with
    | some t =>
      if t = "createAccount" ∨ t = "createAccountWithSeed" then
        match instr.newAccount with
        | some (some newAcc) =>
          .ok (some ⟨newAcc, signature, slot, creation_time,
            instr.lamports.getD 0, instr.space.getD 0, .system⟩)
        | some none => .error "parse pubkey error"
        | none => .ok none
      else .ok none
    | none => .ok none
  else if instr.program = "spl-token" then
    match instr.instr_type with
    | some t =>
      if t = "initializeAccount" then
        match instr.account with
        | some (some acct) =>
          .ok (some ⟨acct, signature, slot, creation_time, 0, ATA_SIZE, .splToken⟩)
        | some none => .error "parse pubkey error"
        | none => .ok none
      else .ok none
    | none => .ok none
  else
    match instr.instr_type with
    | some t =>
      if strContains t "create" ∨ strContains t "initialize" ∨ strContains t "init" then
        match instr.account <|> instr.newAccount <|> instr.address with
        | some (some pk) =>
          match instr.program_id with
          | some pid =>
            .ok (some ⟨pk, signature, slot, creation_time,
              instr.lamports.getD 0, instr.space.getD 0, .other pid⟩)
          | none => .ok none
        | some none => .ok none
        | none => .ok none
      else .ok none
    | none => .ok none

/-- The per-instruction loop of parse_transaction_for_creations: collect
created accounts in instruction order, propagating the first error. -/
def collect_creations (instrs : List (Option ParsedInstr)) (signature slot : Nat)
    (creation_time : Int) : Except String (List SponsoredAccountInfo) :=
  match instrs with
  | [] => .ok []
  | none :: rest => collect_creations rest signature slot creation_time
  | some instr :: rest =>
    match parse_instruction_for_creation instr signature slot creation_time with
    | .error e => .error e
    | .ok none => collect_creations rest signature slot creation_time
    | .ok (some c) =>
      match collect_creations rest signature slot creation_time with
      | .error e => .error e
      | .ok cs => .ok (c :: cs)

/-- AccountDiscovery::parse_transaction_for_creations: non-Json encodings
are skipped, a failing account-key extraction aborts with an error, a Raw
message yields no creations, and a Parsed message is scanned instruction
by instruction with the creation time computed once from block time and
slot. -/
def parse_transaction_for_creations (tx : Tx) (signature : Nat) :
    Except String (List SponsoredAccountInfo) :=
  match tx.encoding with
  | .notJson => .ok []
  | .json keysOk instructions =>
    if keysOk then
      match instructions with
      | none => .ok []
      | some ilist =>
        collect_creations ilist signature tx.slot (creation_time_of tx.block_time tx.slot)
    else .error "parse pubkey error"

/-- One entry of a get_signatures_for_address page. -/
structure SigInfo where
  signature : Nat
  err : Bool
  block_time : Option Int
deriving Repr, DecidableEq

/-- The RPC responses a discovery run can observe: signature pages
(arguments are the before cursor, the until cursor and the page limit;
the scanned address is fixed) and transaction fetches.  Signature strings
are modelled already parsed (they come well-formed from the RPC). -/
structure ScanEnv where
  get_signatures : Option Nat → Option Nat → Nat → Except String (List SigInfo)
  get_transaction : Nat → Except String (Option Tx)

/-- The seen_accounts.insert dedup step: append each parsed creation whose
address has not yet been seen in this run. -/
def insert_new (seen : List Pubkey) (out : List SponsoredAccountInfo) :
    List SponsoredAccountInfo → List Pubkey × List SponsoredAccountInfo
  | [] => (seen, out)
  | a :: rest =>
    if a.pubkey ∈ seen then insert_new seen out rest
    else insert_new (a.pubkey :: seen) (out ++ [a]) rest

/-- The per-signature loop shared by discover_from_signatures and
discover_incremental: skip failed signatures, fetch each remaining
transaction, parse it, and record unseen created accounts. -/
def process_signatures (env : ScanEnv) (sigs : List SigInfo)
    (seen : List Pubkey) (out : List SponsoredAccountInfo) :
    Except String (List Pubkey × List SponsoredAccountInfo) :=
  match sigs with
  | [] => .ok (seen, out)
  | si :: rest =>
    if si.err then process_signatures env rest seen out
    else
      match env.get_transaction si.signature with
      | .error e => .error e
      | .ok none => process_signatures env rest seen out
      | .ok (some tx) =>
        match parse_transaction_for_creations tx si.signature with
        | .error e => .error e
        | .ok sponsored =>
          process_signatures env rest (insert_new seen out sponsored).1
            (insert_new seen out sponsored).2

/-- The backward-paging loop shared by discover_from_signatures
(until_sig = none) and discover_incremental (until_sig = the checkpoint
signature): fetch pages of at most 1000 signatures within the remaining
budget, process each page, paginate backward from the page's last
signature, and stop on an empty page, a short page, or an exhausted
budget. -/
def discover_loop (env : ScanEnv) (max_signatures : Nat) (until_sig : Option Nat)
    (total_fetched : Nat) (before_sig : Option Nat)
    (seen : List Pubkey) (out : List SponsoredAccountInfo) :
    Except String (List SponsoredAccountInfo) :=
  if h : total_fetched < max_signatures then
    match env.get_signatures before_sig until_sig
        (min 1000 (max_signatures - total_fetched)) with
    | .error e => .error e
    | .ok sigs =>
      if hemp : sigs.isEmpty then .ok out
      else
        match process_signatures env sigs seen out with
        | .error e => .error e
        | .ok so =>
          if sigs.length < min 1000 (max_signatures - total_fetched) then .ok so.2
          else
            discover_loop env max_signatures until_sig (total_fetched + sigs.length)
              ((sigs.getLast?).map SigInfo.signature) so.1 so.2
  else .ok out
termination_by max_signatures - total_fetched
decreasing_by
  have hlen : 1 ≤ sigs.length := by
    cases sigs with
    | nil => simp at hemp
    | cons a t => simp
  omega

/-- AccountDiscovery::discover_from_signatures. -/
def discover_from_signatures (env : ScanEnv) (max_signatures : Nat) :
    Except String (List SponsoredAccountInfo) :=
  discover_loop env max_signatures none 0 none [] []

/-- AccountDiscovery::discover_incremental. -/
def discover_incremental (env : ScanEnv) (since_signature : Nat)
    (max_signatures : Nat) : Except String (List SponsoredAccountInfo) :=
  discover_loop env max_signatures (some since_signature) 0 none [] []

/-- A concrete transaction with a missing block time creating one
associated token account, used by the C4 witness. -/
def txW : Tx :=
  ⟨1000, none, .json true (some [some
    ⟨"spl-associated-token-account", none, some "create", some (some 42),
      none, none, none, none⟩])⟩

/-- The invariant maintained by the discovery dedup: the collected
accounts have pairwise-distinct addresses, each recorded in the seen
set. -/
def SeenInv (seen : List Pubkey) (out : List SponsoredAccountInfo) : Prop :=
  (out.map SponsoredAccountInfo.pubkey).Nodup ∧ ∀ a ∈ out, a.pubkey ∈ seen

/-- A trivial scan environment used by the C5 witness: no signatures at
all. -/
def envScanW : ScanEnv := ⟨fun _ _ _ => .ok [], fun _ => .ok none⟩

theorem spl_token_checks_eq_none_iff (operator : Pubkey) (acc : Account) :
    spl_token_checks operator acc = none ↔ spl_close_preconditions operator acc := by
  unfold spl_token_checks spl_close_preconditions
  by_cases h1 : acc.data.length < 165
  · rw [if_pos h1]
    exact ⟨fun h => by simp at h, fun hc => absurd hc.1 (by omega)⟩
  · rw [if_neg h1]
    by_cases h2 : 0 < leBytes (byteSlice acc.data 64 8)
    · rw [if_pos h2]
      exact ⟨fun h => by simp at h, fun hc => absurd hc.2.1 (by omega)⟩
    · rw [if_neg h2]
      by_cases h3 : acc.data.getD 108 0 = 2
      · rw [if_pos h3]
        exact ⟨fun h => by simp at h, fun hc => absurd h3 hc.2.2.1⟩
      · rw [if_neg h3]
        by_cases h4 : acc.data.getD 129 0 = 1
        · rw [if_pos h4]
          by_cases h5 : leBytes (byteSlice acc.data 130 32) = operator
          · rw [if_neg (fun hne => hne h5)]
            exact ⟨fun _ => ⟨by omega, by omega, h3, by rw [if_pos h4]; exact h5⟩,
                   fun _ => rfl⟩
          · rw [if_pos h5]
            exact ⟨fun h => by simp at h, fun hc => by
              have hx := hc.2.2.2
              rw [if_pos h4] at hx
              exact absurd hx h5⟩
        · rw [if_neg h4]
          by_cases h5 : leBytes (byteSlice acc.data 32 32) = operator
          · rw [if_neg (fun hne => hne h5)]
            exact ⟨fun _ => ⟨by omega, by omega, h3, by rw [if_neg h4]; exact h5⟩,
                   fun _ => rfl⟩
          · rw [if_pos h5]
            exact ⟨fun h => by simp at h, fun hc => by
              have hx := hc.2.2.2
              rw [if_neg h4] at hx
              exact absurd hx h5⟩

/-- C1 counterexample: for an address whose on-chain account exists with a
zero lamport balance, reclaim_account does NOT return a non-error result;
it fails with NotEligible, refuting the claim at this concrete input. -/
theorem claims_C1_counterexample :
    (reclaim_account 7 8 false envZeroBalance 5 AccountType.system).1 =
      Except.error (ReclaimError.notEligible "Account has no balance") := by
  rfl

/-- C1 (amended): when the fetched on-chain account is absent,
reclaim_account returns a non-error result with no signature and
amount_reclaimed = 0, and submits no transaction; when the account exists
but its lamport balance is zero, reclaim_account fails with a NotEligible
error and likewise submits no transaction. -/
theorem claims_C1 (operator treasury : Pubkey) (dry_run : Bool)
    (env : ReclaimEnv) (pk : Pubkey) (ty : AccountType) :
    (env.get_account = .ok none →
      reclaim_account operator treasury dry_run env pk ty =
        (.ok ⟨none, 0, pk, dry_run⟩, 0)) ∧
    (∀ acc : Account, env.get_account = .ok (some acc) → acc.lamports = 0 →
      reclaim_account operator treasury dry_run env pk ty =
        (.error (.notEligible "Account has no balance"), 0)) := by
  constructor
  · intro h
    simp [reclaim_account, h]
  · intro acc h h0
    simp [reclaim_account, h, h0]

/-- C1 witness at concrete inputs. -/
theorem claims_C1_witness :
    reclaim_account 7 8 false envAbsent 5 AccountType.system =
      (.ok ⟨none, 0, 5, false⟩, 0) ∧
    reclaim_account 7 8 false envZeroBalance 5 AccountType.system =
      (.error (.notEligible "Account has no balance"), 0) :=
  ⟨(claims_C1 7 8 false envAbsent 5 .system).1 rfl,
   (claims_C1 7 8 false envZeroBalance 5 .system).2 ⟨0, [], 0⟩ rfl rfl⟩

/-- C2: for an existing SplToken account with positive lamports,
reclaim_account fails with NotEligible and submits nothing unless all the
freshly-fetched-byte preconditions hold: data at least 165 bytes, the
little-endian u64 at offset 64 equal to zero, the state byte at offset 108
not equal to 2 (frozen), and the close authority at offsets 130-162 (when
the presence flag at 129 is 1) or else the owner at offsets 32-64 equal to
the operator key; conversely when they all hold the outcome is never a
NotEligible failure. -/
theorem claims_C2 (operator treasury : Pubkey) (dry_run : Bool)
    (env : ReclaimEnv) (pk : Pubkey) (acc : Account)
    (hacc : env.get_account = .ok (some acc)) (hbal : 0 < acc.lamports) :
    (¬ spl_close_preconditions operator acc →
      isNotEligibleErr (reclaim_account operator treasury dry_run env pk .splToken).1 = true ∧
      (reclaim_account operator treasury dry_run env pk .splToken).2 = 0) ∧
    (spl_close_preconditions operator acc →
      isNotEligibleErr (reclaim_account operator treasury dry_run env pk .splToken).1 = false) := by
  have hbal0 : ¬ acc.lamports = 0 := by omega
  constructor
  · intro hfail
    have hchk : spl_token_checks operator acc ≠ none := by
      intro h
      exact hfail ((spl_token_checks_eq_none_iff operator acc).mp h)
    obtain ⟨e, he⟩ := Option.ne_none_iff_exists'.mp hchk
    have hne : ∃ msg, e = .notEligible msg := by
      unfold spl_token_checks at he
      split at he
      · exact ⟨_, (Option.some_injective _ he).symm⟩
      · split at he
        · exact ⟨_, (Option.some_injective _ he).symm⟩
        · split at he
          · exact ⟨_, (Option.some_injective _ he).symm⟩
          · split at he
            · split at he
              · exact ⟨_, (Option.some_injective _ he).symm⟩
              · simp at he
            · split at he
              · exact ⟨_, (Option.some_injective _ he).symm⟩
              · simp at he
    obtain ⟨msg, hmsg⟩ := hne
    simp [reclaim_account, hacc, hbal0, he, hmsg, isNotEligibleErr]
  · intro hok
    have hchk : spl_token_checks operator acc = none :=
      (spl_token_checks_eq_none_iff operator acc).mpr hok
    simp only [reclaim_account, hacc, hbal0, if_false, hchk]
    simp only [build_close_instruction]
    cases dry_run with
    | true => simp [isNotEligibleErr]
    | false =>
      cases env.get_latest_blockhash with
      | error e => simp [isNotEligibleErr]
      | ok bh =>
        cases env.send_and_confirm with
        | error e => simp [isNotEligibleErr]
        | ok sig => simp [isNotEligibleErr]

/-- C2 witness: a 165-byte account with a nonzero token amount fails the
preconditions and is rejected as NotEligible with no submission. -/
theorem claims_C2_witness :
    (¬ spl_close_preconditions 7 ⟨1000, List.replicate 64 0 ++ 1 :: List.replicate 100 0, 1⟩ ∧
      0 < (1000 : Nat)) ∧
    isNotEligibleErr (reclaim_account 7 8 false
      ⟨.ok (some ⟨1000, List.replicate 64 0 ++ 1 :: List.replicate 100 0, 1⟩), .ok 0, .ok 0⟩
      5 .splToken).1 = true := by
  refine ⟨⟨by decide, by decide⟩, ?_⟩
  exact ((claims_C2 7 8 false
    ⟨.ok (some ⟨1000, List.replicate 64 0 ++ 1 :: List.replicate 100 0, 1⟩), .ok 0, .ok 0⟩
    5 ⟨1000, List.replicate 64 0 ++ 1 :: List.replicate 100 0, 1⟩ rfl (by decide)).1
    (by decide)).1

/-- C3: for every existing account with positive lamports classified as
System or Other(programId), reclaim_account fails with NotEligible and
submits no transaction. -/
theorem claims_C3 (operator treasury : Pubkey) (dry_run : Bool)
    (env : ReclaimEnv) (pk : Pubkey) (ty : AccountType) (acc : Account)
    (hacc : env.get_account = .ok (some acc)) (hbal : 0 < acc.lamports)
    (hty : ty = .system ∨ ∃ pid, ty = .other pid) :
    isNotEligibleErr (reclaim_account operator treasury dry_run env pk ty).1 = true ∧
    (reclaim_account operator treasury dry_run env pk ty).2 = 0 := by
  have hbal0 : ¬ acc.lamports = 0 := by omega
  rcases hty with h | ⟨pid, h⟩ <;> subst h <;>
    simp [reclaim_account, hacc, hbal0, build_close_instruction, isNotEligibleErr]

/-- C6: with the on-chain state fixed, an account eligible under
minimum-inactivity window w stays eligible under every smaller window
w' ≤ w - only the two window comparisons depend on the window and both
are monotone. -/
theorem check_inactivity_mono (w w' : Nat) (hw : w' ≤ w) (env : EligEnv)
    (now : Int) (h : check_inactivity w env now = .ok true) :
    check_inactivity w' env now = .ok true := by
  unfold check_inactivity at h ⊢
  cases henv : env.last_tx_time with
  | error e =>
    rw [henv] at h
    simp at h
  | ok o =>
    rw [henv] at h
    cases o with
    | none => rfl
    | some t =>
      simp only [Except.ok.injEq, decide_eq_true_eq] at h ⊢
      omega

theorem claims_C6 (wl bl : List Pubkey) (operator : Pubkey) (env : EligEnv)
    (now created_at : Int) (pk : Pubkey) (w w' : Nat) (hw : w' ≤ w)
    (helig : is_eligible ⟨wl, bl, w, operator⟩ env now pk created_at = .ok true) :
    is_eligible ⟨wl, bl, w', operator⟩ env now pk created_at = .ok true := by
  unfold is_eligible at helig ⊢
  dsimp only at helig ⊢
  by_cases hwl : pk ∈ wl
  · rw [if_pos hwl] at helig
    simp at helig
  · rw [if_neg hwl] at helig ⊢
    by_cases hbl : pk ∈ bl
    · rw [if_pos hbl] at helig
      simp at helig
    · rw [if_neg hbl] at helig ⊢
      split at helig
      · simp at helig
      · simp at helig
      · rename_i acc heq
        by_cases hl : acc.lamports = 0
        · rw [if_pos hl] at helig
          simp at helig
        · rw [if_neg hl] at helig ⊢
          by_cases hrt : is_reclaimable_type (determine_account_type acc) = false
          · rw [if_pos hrt] at helig
            simp at helig
          · rw [if_neg hrt] at helig ⊢
            by_cases hca : determine_account_type acc = AccountType.splToken ∧
                has_close_authority operator acc = false
            · rw [if_pos hca] at helig
              simp at helig
            · rw [if_neg hca] at helig ⊢
              by_cases hage : now - created_at < (w : Int) * 86400
              · rw [if_pos hage] at helig
                simp at helig
              · rw [if_neg hage] at helig
                rw [if_neg (show ¬ now - created_at < (w' : Int) * 86400 by omega)]
                cases hci : check_inactivity w env now with
                | error e =>
                  rw [hci] at helig
                  simp at helig
                | ok b =>
                  rw [hci] at helig
                  cases b with
                  | false => simp at helig
                  | true =>
                    rw [check_inactivity_mono w w' hw env now hci]
                    dsimp only at helig ⊢
                    rw [if_neg (by simp : ¬ (true = false))] at helig
                    rw [if_neg (by simp : ¬ (true = false))]
                    exact helig

/-- C6 witness: an account eligible under a 1-day window stays eligible
under a 0-day window. -/
theorem claims_C6_witness :
    ((0 : Nat) ≤ 1 ∧
      is_eligible ⟨[], [], 1, 0⟩ eligEnvW 200000 5 0 = .ok true) ∧
    is_eligible ⟨[], [], 0, 0⟩ eligEnvW 200000 5 0 = .ok true :=
  ⟨⟨by decide, by rfl⟩,
   claims_C6 [] [] 0 eligEnvW 200000 0 5 1 0 (by decide) (by rfl)⟩

/-- C9: for an SPL-token-owned account with fewer than 165 data bytes the
close-authority check evaluates to false (total, no out-of-bounds read in
the model) and is_eligible returns Ok false rather than an error - the
short account is classified Other(spl_token_id) and rejected as not
reclaimable. -/
theorem claims_C9 (cfg : ReclaimConfig) (env : EligEnv) (now created_at : Int)
    (pk : Pubkey) (acc : Account)
    (hacc : env.get_account = .ok (some acc))
    (hown : acc.owner = spl_token_id)
    (hlen : acc.data.length < 165) :
    has_close_authority cfg.operator acc = false ∧
    is_eligible cfg env now pk created_at = .ok false := by
  constructor
  · unfold has_close_authority
    rw [if_pos hlen]
  · unfold is_eligible
    by_cases hwl : pk ∈ cfg.whitelist
    · rw [if_pos hwl]
    · rw [if_neg hwl]
      by_cases hbl : pk ∈ cfg.blacklist
      · rw [if_pos hbl]
      · rw [if_neg hbl]
        rw [hacc]
        dsimp only
        by_cases hl : acc.lamports = 0
        · rw [if_pos hl]
        · rw [if_neg hl]
          have hty : determine_account_type acc = .other acc.owner := by
            unfold determine_account_type
            rw [if_neg (fun hc => absurd hc.2 (by omega))]
            rw [if_neg (by simp [hown, spl_token_id, system_program_id])]
          have hrt : is_reclaimable_type (determine_account_type acc) = false := by
            rw [hty]
            rfl
          rw [if_pos hrt]

/-- C9 witness at a concrete 3-byte SPL-token-owned account. -/
theorem claims_C9_witness :
    has_close_authority 7 ⟨1000, [0, 0, 0], 1⟩ = false ∧
    is_eligible ⟨[], [], 1, 7⟩
      ⟨.ok (some ⟨1000, [0, 0, 0], 1⟩), fun _ => .ok 0, .ok none⟩
      200000 5 0 = .ok false :=
  claims_C9 ⟨[], [], 1, 7⟩
    ⟨.ok (some ⟨1000, [0, 0, 0], 1⟩), fun _ => .ok 0, .ok none⟩
    200000 0 5 ⟨1000, [0, 0, 0], 1⟩ rfl rfl (by decide)

/-- C3 witness at a concrete System account and a concrete Other account. -/
theorem claims_C3_witness :
    isNotEligibleErr (reclaim_account 7 8 false
      ⟨.ok (some ⟨1000, [], 0⟩), .ok 0, .ok 0⟩ 5 .system).1 = true ∧
    isNotEligibleErr (reclaim_account 7 8 false
      ⟨.ok (some ⟨1000, [], 9⟩), .ok 0, .ok 0⟩ 5 (.other 9)).1 = true :=
  ⟨(claims_C3 7 8 false ⟨.ok (some ⟨1000, [], 0⟩), .ok 0, .ok 0⟩ 5 .system
      ⟨1000, [], 0⟩ rfl (by decide) (Or.inl rfl)).1,
   (claims_C3 7 8 false ⟨.ok (some ⟨1000, [], 9⟩), .ok 0, .ok 0⟩ 5 (.other 9)
      ⟨1000, [], 9⟩ rfl (by decide) (Or.inr ⟨9, rfl⟩)).1⟩

/-- C7: every High-confidence record produced by match_amount_to_accounts
attributes exactly one account, and that account is a closed account whose
recorded rent is within the fixed 5000-lamport tolerance of the observed
increase (which the record carries as its amount). -/
theorem claims_C7 (increase : Nat) (closed : List SponsoredAccount) (now : Int)
    (r : PassiveReclaim) (hr : r ∈ match_amount_to_accounts increase closed now)
    (hc : r.confidence = .high) :
    r.attributed_accounts.length = 1 ∧ r.amount = increase ∧
    ∃ a ∈ closed, lamportDiff increase a.rent_lamports ≤ 5000 ∧
      r.attributed_accounts = [a.pubkey.getD 0] := by
  unfold match_amount_to_accounts at hr
  cases hfind : closed.find?
      (fun a => decide (lamportDiff increase a.rent_lamports ≤ 5000)) with
  | some account =>
    rw [hfind] at hr
    have hrr : r = ⟨increase, now, [account.pubkey.getD 0], .high⟩ := by
      simpa using hr
    subst hrr
    refine ⟨rfl, rfl, account, List.mem_of_find?_eq_some hfind, ?_, rfl⟩
    have := List.find?_some hfind
    simpa using this
  | none =>
    rw [hfind] at hr
    cases hcomb : (if 2 ≤ closed.length then
        find_account_combination increase closed 5000 else none) with
    | some pr =>
      rw [hcomb] at hr
      obtain ⟨pks, total⟩ := pr
      have hrr : r = ⟨increase, now, pks, .medium⟩ := by simpa using hr
      rw [hrr] at hc
      simp at hc
    | none =>
      rw [hcomb] at hr
      have hrr : r = ⟨increase, now, (closed.take 5).filterMap (fun a => a.pubkey),
          if closed.isEmpty then .unknown else .low⟩ := by simpa using hr
      rw [hrr] at hc
      by_cases he : closed.isEmpty
      · simp [he] at hc
      · simp [he] at hc

/-- C7 witness: one closed account whose rent matches the increase
exactly. -/
theorem claims_C7_witness :
    ((⟨7000, 0, [3], .high⟩ : PassiveReclaim) ∈
        match_amount_to_accounts 7000 [⟨some 3, 7000⟩] 0 ∧
      (⟨7000, 0, [3], .high⟩ : PassiveReclaim).confidence = .high) ∧
    ((⟨7000, 0, [3], .high⟩ : PassiveReclaim).attributed_accounts.length = 1 ∧
      (⟨7000, 0, [3], .high⟩ : PassiveReclaim).amount = 7000 ∧
      ∃ a ∈ [(⟨some 3, 7000⟩ : SponsoredAccount)],
        lamportDiff 7000 a.rent_lamports ≤ 5000 ∧
        (⟨7000, 0, [3], .high⟩ : PassiveReclaim).attributed_accounts =
          [a.pubkey.getD 0]) :=
  ⟨⟨by decide, rfl⟩,
   claims_C7 7000 [⟨some 3, 7000⟩] 0 ⟨7000, 0, [3], .high⟩ (by decide) rfl⟩

/-- C10: match_amount_to_accounts always returns exactly one record; on an
empty closed list it is Unknown with an empty attributed set; and when no
single account nor pair/triple combination matches, it is Low and
attributes the parseable among the first five closed accounts - at most
five addresses. -/
theorem claims_C10 (increase : Nat) (closed : List SponsoredAccount) (now : Int)
    (hpos : 0 < increase) :
    (match_amount_to_accounts increase closed now).length = 1 ∧
    (closed = [] →
      match_amount_to_accounts increase closed now =
        [⟨increase, now, [], .unknown⟩]) ∧
    (closed ≠ [] →
      (∀ a ∈ closed, ¬ lamportDiff increase a.rent_lamports ≤ 5000) →
      find_account_combination increase closed 5000 = none →
      match_amount_to_accounts increase closed now =
        [⟨increase, now, (closed.take 5).filterMap (fun a => a.pubkey), .low⟩] ∧
      ((closed.take 5).filterMap (fun a => a.pubkey)).length ≤ 5) := by
  refine ⟨?_, ?_, ?_⟩
  · unfold match_amount_to_accounts
    cases hfind : closed.find?
        (fun a => decide (lamportDiff increase a.rent_lamports ≤ 5000)) with
    | some account => rfl
    | none =>
      cases hcomb : (if 2 ≤ closed.length then
          find_account_combination increase closed 5000 else none) with
      | some pr =>
        obtain ⟨pks, total⟩ := pr
        rfl
      | none => rfl
  · intro h
    subst h
    rfl
  · intro hne hnoex hnocomb
    have hfind : closed.find?
        (fun a => decide (lamportDiff increase a.rent_lamports ≤ 5000)) = none := by
      rw [List.find?_eq_none]
      intro a ha
      simpa using hnoex a ha
    have hif : (if 2 ≤ closed.length then
        find_account_combination increase closed 5000 else none) = none := by
      by_cases hlen : 2 ≤ closed.length
      · rw [if_pos hlen]
        exact hnocomb
      · rw [if_neg hlen]
    have hemp : closed.isEmpty = false := by
      cases closed with
      | nil => exact absurd rfl hne
      | cons a t => rfl
    constructor
    · unfold match_amount_to_accounts
      rw [hfind, hif, hemp]
      rfl
    · calc ((closed.take 5).filterMap (fun a => a.pubkey)).length
          ≤ (closed.take 5).length := List.length_filterMap_le _ _
        _ ≤ 5 := by
            rw [List.length_take]
            omega

/-- C10 witness: an empty closed list yields the single Unknown record. -/
theorem claims_C10_witness :
    (0 : Nat) < 7000 ∧ (match_amount_to_accounts 7000 [] 0).length = 1 :=
  ⟨by decide, (claims_C10 7000 [] 0 (by decide)).1⟩

theorem addResult_counts (s : BatchSummary) (pk : Pubkey)
    (r : Except ReclaimError ReclaimResult) :
    (addResult s pk r).successful + (addResult s pk r).failed =
      s.successful + s.failed + 1 ∧
    (addResult s pk r).results.map Prod.fst = s.results.map Prod.fst ++ [pk] := by
  cases r with
  | ok rr => exact ⟨by simp [addResult]; omega, by simp [addResult]⟩
  | error e => exact ⟨by simp [addResult]; omega, by simp [addResult]⟩

theorem foldl_addResult_spec {α : Type} (k : α → Pubkey)
    (v : α → Except ReclaimError ReclaimResult) (xs : List α) (s : BatchSummary) :
    ((xs.foldl (fun s x => addResult s (k x) (v x)) s).successful +
      (xs.foldl (fun s x => addResult s (k x) (v x)) s).failed =
        s.successful + s.failed + xs.length) ∧
    (xs.foldl (fun s x => addResult s (k x) (v x)) s).results.map Prod.fst =
      s.results.map Prod.fst ++ xs.map k := by
  induction xs generalizing s with
  | nil => simp
  | cons x t ih =>
    simp only [List.foldl_cons, List.map_cons, List.length_cons]
    obtain ⟨h1, h2⟩ := ih (addResult s (k x) (v x))
    obtain ⟨a1, a2⟩ := addResult_counts s (k x) (v x)
    refine ⟨by omega, ?_⟩
    rw [h2, a2]
    simp

theorem handle_chunk_spec (ctx : EngineCtx) (chunk : List (Pubkey × AccountType))
    (s : BatchSummary) :
    ((handle_chunk_result ctx chunk (batch_reclaim ctx chunk) s).successful +
      (handle_chunk_result ctx chunk (batch_reclaim ctx chunk) s).failed =
        s.successful + s.failed + chunk.length) ∧
    (handle_chunk_result ctx chunk (batch_reclaim ctx chunk) s).results.map Prod.fst =
      s.results.map Prod.fst ++ chunk.map Prod.fst := by
  unfold handle_chunk_result batch_reclaim
  dsimp only
  rw [List.foldl_map]
  have h := foldl_addResult_spec (fun p : Pubkey × AccountType => p.1)
    (fun p : Pubkey × AccountType =>
      (reclaim_account ctx.operator ctx.treasury ctx.dry_run (ctx.env p.1) p.1 p.2).1)
    chunk s
  exact h

theorem process_chunks_spec (ctx : EngineCtx)
    (cs : List (List (Pubkey × AccountType))) (s : BatchSummary) :
    ((cs.foldl (fun s chunk => handle_chunk_result ctx chunk (batch_reclaim ctx chunk) s)
        s).successful +
      (cs.foldl (fun s chunk => handle_chunk_result ctx chunk (batch_reclaim ctx chunk) s)
        s).failed =
        s.successful + s.failed + (cs.map List.length).sum) ∧
    (cs.foldl (fun s chunk => handle_chunk_result ctx chunk (batch_reclaim ctx chunk) s)
        s).results.map Prod.fst =
      s.results.map Prod.fst ++ (cs.map (fun c => c.map Prod.fst)).flatten := by
  induction cs generalizing s with
  | nil => simp
  | cons c t ih =>
    simp only [List.foldl_cons, List.map_cons, List.sum_cons, List.flatten_cons]
    obtain ⟨h1, h2⟩ := ih (handle_chunk_result ctx c (batch_reclaim ctx c) s)
    obtain ⟨a1, a2⟩ := handle_chunk_spec ctx c s
    refine ⟨by omega, ?_⟩
    rw [h2, a2]
    simp

theorem chunksOf_flatten (n : Nat) (hn : 0 < n) (l : List α) :
    (chunksOf n l).flatten = l := by
  generalize hk : l.length = k
  induction k using Nat.strong_induction_on generalizing l with
  | _ k ih =>
    unfold chunksOf
    by_cases h : l.isEmpty ∨ n = 0
    · rw [dif_pos h]
      rcases h with h | h
      · cases l with
        | nil => rfl
        | cons a t => simp at h
      · omega
    · rw [dif_neg h]
      push_neg at h
      have hne : l ≠ [] := fun hnil => h.1 (by simp [hnil])
      have hpos : 0 < l.length := List.length_pos.mpr hne
      have hlt : (l.drop n).length < k := by
        rw [List.length_drop]
        omega
      rw [List.flatten_cons]
      rw [ih (l.drop n).length hlt (l.drop n) rfl]
      exact List.take_append_drop n l

/-- C8: with a positive chunk size, reclaim_all_eligible always returns an
Ok summary in which successful + failed equals the input size and the
per-account result list carries exactly the input addresses in order; and
a failed chunk call is handled by retrying every account of that chunk
individually through reclaim_account. -/
theorem claims_C8 (ctx : EngineCtx) (batch_size : Nat)
    (accounts : List (Pubkey × AccountType)) (hbs : 0 < batch_size) :
    (∃ s : BatchSummary,
      reclaim_all_eligible ctx batch_size accounts = .ok s ∧
      s.successful + s.failed = accounts.length ∧
      s.results.map Prod.fst = accounts.map Prod.fst) ∧
    (∀ (e : ReclaimError) (chunk : List (Pubkey × AccountType)) (s : BatchSummary),
      handle_chunk_result ctx chunk (.error e) s =
        chunk.foldl (fun s p =>
          addResult s p.1
            (reclaim_account ctx.operator ctx.treasury ctx.dry_run (ctx.env p.1)
              p.1 p.2).1) s) := by
  constructor
  · unfold reclaim_all_eligible
    by_cases hemp : accounts.isEmpty
    · rw [if_pos hemp]
      have : accounts = [] := by simpa using hemp
      subst this
      exact ⟨⟨0, 0, 0, 0, []⟩, rfl, rfl, rfl⟩
    · rw [if_neg hemp]
      unfold process_batch
      refine ⟨_, rfl, ?_, ?_⟩
      · obtain ⟨h1, _⟩ := process_chunks_spec ctx (chunksOf batch_size accounts)
          ⟨accounts.length, 0, 0, 0, []⟩
        rw [h1]
        have := chunksOf_flatten batch_size hbs accounts
        calc (0 : Nat) + 0 + ((chunksOf batch_size accounts).map List.length).sum
            = ((chunksOf batch_size accounts).flatten).length := by
              rw [List.length_flatten]
              omega
        _ = accounts.length := by rw [this]
      · obtain ⟨_, h2⟩ := process_chunks_spec ctx (chunksOf batch_size accounts)
          ⟨accounts.length, 0, 0, 0, []⟩
        rw [h2]
        have hj := chunksOf_flatten batch_size hbs accounts
        calc ([] : List (Pubkey × Except ReclaimError ReclaimResult)).map Prod.fst ++
              ((chunksOf batch_size accounts).map (fun c => c.map Prod.fst)).flatten
            = ((chunksOf batch_size accounts).flatten).map Prod.fst := by
              rw [List.map_flatten]
              simp
        _ = accounts.map Prod.fst := by rw [hj]
  · intro e chunk s
    rfl

/-- C8 witness: two accounts in chunks of one, both rejected (system
accounts are never reclaimable), still yield a full per-account summary. -/
theorem claims_C8_witness :
    (0 : Nat) < 1 ∧
    (∃ s : BatchSummary,
      reclaim_all_eligible ⟨7, 8, false, fun _ => ⟨.ok none, .ok 0, .ok 0⟩⟩ 1
        [(4, .system), (5, .system)] = .ok s ∧
      s.successful + s.failed = 2 ∧
      s.results.map Prod.fst = [4, 5]) := by
  constructor
  · decide
  · obtain ⟨s, hs, h1, h2⟩ :=
      (claims_C8 ⟨7, 8, false, fun _ => ⟨.ok none, .ok 0, .ok 0⟩⟩ 1
        [(4, .system), (5, .system)] (by decide)).1
    exact ⟨s, hs, h1, h2⟩

theorem parse_instruction_creation_time (instr : ParsedInstr)
    (signature slot : Nat) (ct : Int) (a : SponsoredAccountInfo)
    (h : parse_instruction_for_creation instr signature slot ct = .ok (some a)) :
    a.creation_time = ct := by
  unfold parse_instruction_for_creation at h
  repeat' split at h
  all_goals try simp only [Except.ok.injEq, Option.some.injEq] at h
  all_goals
    first
    | exact absurd h (by simp)
    | (subst h; rfl)

theorem collect_creations_time (instrs : List (Option ParsedInstr))
    (signature slot : Nat) (ct : Int) (l : List SponsoredAccountInfo)
    (h : collect_creations instrs signature slot ct = .ok l) :
    ∀ a ∈ l, a.creation_time = ct := by
  induction instrs generalizing l with
  | nil =>
    simp only [collect_creations] at h
    have : l = [] := by simpa using h.symm
    subst this
    intro a ha
    simp at ha
  | cons o rest ih =>
    cases o with
    | none =>
      simp only [collect_creations] at h
      exact ih l h
    | some instr =>
      simp only [collect_creations] at h
      cases hp : parse_instruction_for_creation instr signature slot ct with
      | error e =>
        rw [hp] at h
        simp at h
      | ok oc =>
        rw [hp] at h
        cases oc with
        | none =>
          dsimp only at h
          exact ih l h
        | some c =>
          dsimp only at h
          cases hrec : collect_creations rest signature slot ct with
          | error e =>
            rw [hrec] at h
            simp at h
          | ok cs =>
            rw [hrec] at h
            have : l = c :: cs := by simpa using h.symm
            subst this
            intro a ha
            rcases List.mem_cons.mp ha with ha | ha
            · subst ha
              exact parse_instruction_creation_time instr signature slot ct a hp
            · exact ih cs hrec a ha

/-- C4: for a transaction with no block time, every creation record's
creation time is the fixed function of the slot - 400 ms per slot on top
of the 1600000000 epoch - so re-parsing at any later wall-clock time
yields the identical creation time (the computation takes no clock
input). -/
theorem claims_C4 (tx : Tx) (signature : Nat) (l : List SponsoredAccountInfo)
    (hbt : tx.block_time = none)
    (hp : parse_transaction_for_creations tx signature = .ok l) :
    ∀ a ∈ l, a.creation_time = (1600000000 : Int) + ((tx.slot * 400) / 1000 : Nat) := by
  have hct : creation_time_of tx.block_time tx.slot =
      (1600000000 : Int) + ((tx.slot * 400) / 1000 : Nat) := by
    rw [hbt]
    rfl
  unfold parse_transaction_for_creations at hp
  cases htx : tx.encoding with
  | notJson =>
    rw [htx] at hp
    have : l = [] := by simpa using hp.symm
    subst this
    intro a ha
    simp at ha
  | json keysOk instructions =>
    rw [htx] at hp
    cases keysOk with
    | false => simp at hp
    | true =>
      dsimp only at hp
      cases instructions with
      | none =>
        have : l = [] := by simpa using hp.symm
        subst this
        intro a ha
        simp at ha
      | some ilist =>
        dsimp only at hp
        rw [hct] at hp
        exact collect_creations_time ilist signature tx.slot _ l hp

/-- C4 witness: the record parsed out of txW carries the slot-derived
creation time 1600000400. -/
theorem claims_C4_witness :
    (txW.block_time = none ∧
      parse_transaction_for_creations txW 9 =
        .ok [⟨42, 9, 1000, 1600000400, 2039280, 165, .splToken⟩]) ∧
    (⟨42, 9, 1000, 1600000400, 2039280, 165, .splToken⟩ :
        SponsoredAccountInfo).creation_time =
      (1600000000 : Int) + ((txW.slot * 400) / 1000 : Nat) :=
  ⟨⟨rfl, by rfl⟩,
   claims_C4 txW 9 [⟨42, 9, 1000, 1600000400, 2039280, 165, .splToken⟩] rfl (by rfl)
     ⟨42, 9, 1000, 1600000400, 2039280, 165, .splToken⟩ (by simp)⟩

theorem insert_new_inv (sponsored : List SponsoredAccountInfo) :
    ∀ (seen : List Pubkey) (out : List SponsoredAccountInfo),
      SeenInv seen out →
      SeenInv (insert_new seen out sponsored).1 (insert_new seen out sponsored).2 := by
  induction sponsored with
  | nil =>
    intro seen out h
    simpa [insert_new] using h
  | cons a rest ih =>
    intro seen out h
    simp only [insert_new]
    by_cases hmem : a.pubkey ∈ seen
    · rw [if_pos hmem]
      exact ih seen out h
    · rw [if_neg hmem]
      apply ih
      constructor
      · rw [List.map_append, List.nodup_append]
        refine ⟨h.1, by simp, ?_⟩
        intro x hx hx2
        simp at hx2
        subst hx2
        obtain ⟨b, hb, hbeq⟩ := List.mem_map.mp hx
        exact hmem (hbeq ▸ h.2 b hb)
      · intro b hb
        rcases List.mem_append.mp hb with hb | hb
        · exact List.mem_cons_of_mem _ (h.2 b hb)
        · simp at hb
          subst hb
          exact List.mem_cons_self _ _

theorem process_signatures_inv (sigs : List SigInfo) (env : ScanEnv) :
    ∀ (seen : List Pubkey) (out : List SponsoredAccountInfo)
      (seen2 : List Pubkey) (out2 : List SponsoredAccountInfo),
      SeenInv seen out →
      process_signatures env sigs seen out = .ok (seen2, out2) →
      SeenInv seen2 out2 := by
  induction sigs with
  | nil =>
    intro seen out seen2 out2 h hp
    simp only [process_signatures] at hp
    obtain ⟨h1, h2⟩ : seen = seen2 ∧ out = out2 := by simpa using hp
    subst h1
    subst h2
    exact h
  | cons si rest ih =>
    intro seen out seen2 out2 h hp
    simp only [process_signatures] at hp
    by_cases herr : si.err = true
    · rw [if_pos herr] at hp
      exact ih seen out seen2 out2 h hp
    · rw [if_neg herr] at hp
      cases hgt : env.get_transaction si.signature with
      | error e =>
        rw [hgt] at hp
        simp at hp
      | ok otx =>
        rw [hgt] at hp
        cases otx with
        | none =>
          dsimp only at hp
          exact ih seen out seen2 out2 h hp
        | some tx =>
          dsimp only at hp
          cases hpc : parse_transaction_for_creations tx si.signature with
          | error e =>
            rw [hpc] at hp
            simp at hp
          | ok sponsored =>
            rw [hpc] at hp
            dsimp only at hp
            exact ih _ _ seen2 out2 (insert_new_inv sponsored seen out h) hp

theorem discover_loop_nodup (env : ScanEnv) (max_signatures : Nat)
    (until_sig : Option Nat) (k : Nat) :
    ∀ (total_fetched : Nat) (before_sig : Option Nat) (seen : List Pubkey)
      (out : List SponsoredAccountInfo) (l : List SponsoredAccountInfo),
      max_signatures - total_fetched = k →
      SeenInv seen out →
      discover_loop env max_signatures until_sig total_fetched before_sig seen out
        = .ok l →
      (l.map SponsoredAccountInfo.pubkey).Nodup := by
  induction k using Nat.strong_induction_on with
  | _ k ih =>
    intro total_fetched before_sig seen out l hk hinv hd
    unfold discover_loop at hd
    by_cases h : total_fetched < max_signatures
    · rw [dif_pos h] at hd
      cases hsig : env.get_signatures before_sig until_sig
          (min 1000 (max_signatures - total_fetched)) with
      | error e =>
        rw [hsig] at hd
        simp at hd
      | ok sigs =>
        rw [hsig] at hd
        dsimp only at hd
        by_cases hemp : sigs.isEmpty
        · rw [dif_pos hemp] at hd
          have : out = l := by simpa using hd
          exact this ▸ hinv.1
        · rw [dif_neg hemp] at hd
          cases hps : process_signatures env sigs seen out with
          | error e =>
            rw [hps] at hd
            simp at hd
          | ok so =>
            rw [hps] at hd
            dsimp only at hd
            have hinv2 : SeenInv so.1 so.2 :=
              process_signatures_inv sigs env seen out so.1 so.2 hinv (by rw [hps])
            by_cases hshort : sigs.length < min 1000 (max_signatures - total_fetched)
            · rw [if_pos hshort] at hd
              have : so.2 = l := by simpa using hd
              exact this ▸ hinv2.1
            · rw [if_neg hshort] at hd
              have hlen : 1 ≤ sigs.length := by
                cases sigs with
                | nil => simp at hemp
                | cons a t => simp
              exact ih (max_signatures - (total_fetched + sigs.length)) (by omega)
                (total_fetched + sigs.length) _ so.1 so.2 l rfl hinv2 hd
    · rw [dif_neg h] at hd
      have : out = l := by simpa using hd
      exact this ▸ hinv.1

/-- C5: every list a discovery run returns carries pairwise-distinct
account addresses, for both the full scan and the incremental scan; and a
scan is a deterministic function of the RPC responses - two environments
answering every signature-page and transaction query identically produce
identical results. -/
theorem claims_C5 (env : ScanEnv) (max_signatures : Nat) :
    (∀ l, discover_from_signatures env max_signatures = .ok l →
      (l.map SponsoredAccountInfo.pubkey).Nodup) ∧
    (∀ since l, discover_incremental env since max_signatures = .ok l →
      (l.map SponsoredAccountInfo.pubkey).Nodup) ∧
    (∀ env2 : ScanEnv,
      (∀ b u n, env.get_signatures b u n = env2.get_signatures b u n) →
      (∀ s, env.get_transaction s = env2.get_transaction s) →
      discover_from_signatures env max_signatures =
        discover_from_signatures env2 max_signatures ∧
      ∀ since, discover_incremental env since max_signatures =
        discover_incremental env2 since max_signatures) := by
  have hinv0 : SeenInv [] [] := ⟨List.nodup_nil, by intro a ha; simp at ha⟩
  refine ⟨?_, ?_, ?_⟩
  · intro l hd
    exact discover_loop_nodup env max_signatures none (max_signatures - 0)
      0 none [] [] l rfl hinv0 hd
  · intro since l hd
    exact discover_loop_nodup env max_signatures (some since) (max_signatures - 0)
      0 none [] [] l rfl hinv0 hd
  · intro env2 hs ht
    have henv : env = env2 := by
      cases env with
      | mk gs gt =>
        cases env2 with
        | mk gs2 gt2 =>
          simp only [ScanEnv.mk.injEq]
          constructor
          · funext b u n
            exact hs b u n
          · funext s
            exact ht s
    exact ⟨by rw [henv], fun since => by rw [henv]⟩

/-- C5 witness: the empty scan returns an (trivially duplicate-free)
empty list. -/
theorem claims_C5_witness :
    discover_from_signatures envScanW 5 = .ok [] ∧
    (([] : List SponsoredAccountInfo).map SponsoredAccountInfo.pubkey).Nodup := by
  have hd : discover_from_signatures envScanW 5 = .ok [] := by
    unfold discover_from_signatures
    unfold discover_loop
    simp [envScanW]
  exact ⟨hd, (claims_C5 envScanW 5).1 [] hd⟩

end Kora
